import Mathlib

/-
Shallow embedding of the retrieval-sufficiency QA workflow and the hybrid
policy search of the `langchain-3-mvp` backend (`src/backend/src/app`).

Modelling conventions:
* Python floats (relevance scores) are modelled as rationals (`ℚ`).
* Python datetimes are modelled as integer timestamps, formatted dates as
  uninterpreted strings supplied as parameters.
* External collaborators (vector index, relational store, web-search
  providers, the language model) are explicit oracle parameters; a Python
  exception raised by an external call is modelled as the `.error` case of
  an `Except` outcome or an `Option String` exception message.
* Python dict-shaped workflow state (`QAState` in `agent/state.py`) is a
  structure with the same field names.
-/

namespace PolicyQA

/-! ## Data model (`agent/state.py`, node payload dicts) -/

/-- A retrieved passage dict as assembled by `retrieve_from_db_node`
(keys `content`, `score`, `doc_type`, `policy_id`, `chunk_index`). -/
structure RetrievedDoc where
  content : String
  score : ℚ
  doc_type : String
  policy_id : Option Int
  chunk_index : Nat
deriving DecidableEq

/-- A web search result dict as assembled by `web_search_node`
(`url`, `title`, `snippet`, optional `score`, `fetched_date`, `source_type`);
DuckDuckGo results carry no `score` key, modelled as `none`. -/
structure WebSource where
  url : String
  title : String
  snippet : String
  score : Option ℚ
  fetched_date : String
  source_type : String
deriving DecidableEq

/-- An evidence dict built by `generate_answer_node`; internal items carry
`score` but no `url`/`fetched_date`, web items the other way around. -/
structure EvidenceItem where
  type : String
  source : String
  content : String
  score : Option ℚ
  url : Option String
  fetched_date : Option String
deriving DecidableEq

/-- The workflow state (`QAState` TypedDict). -/
structure QAState where
  session_id : String
  policy_id : Int
  messages : List (String × String)
  current_query : String
  retrieved_docs : List RetrievedDoc
  web_sources : List WebSource
  answer : String
  need_web_search : Bool
  evidence : List EvidenceItem
  error : Option String
deriving DecidableEq

/-! ## Python substring test (`keyword in query`) -/

/-- `leadsWith n h` holds when `n` is an initial run of `h`
(character-by-character comparison). -/
def leadsWith : List Char → List Char → Bool
  | [], _ => true
  | _ :: _, [] => false
  | a :: as, b :: bs => a == b && leadsWith as bs

/-- Python's `needle in haystack` substring test on strings. -/
def occursIn : List Char → List Char → Bool
  | n, [] => n.isEmpty
  | n, h :: t => leadsWith n (h :: t) || occursIn n t

theorem leadsWith_iff (n h : List Char) : leadsWith n h = true ↔ n <+: h := by
  induction n generalizing h with
  | nil =>
    simp only [leadsWith, true_iff]
    exact List.nil_prefix
  | cons a as ih =>
    cases h with
    | nil => simp [leadsWith]
    | cons b bs => simp [leadsWith, ih, List.cons_prefix_cons]

theorem occursIn_iff (n h : List Char) : occursIn n h = true ↔ n <:+: h := by
  induction h with
  | nil => simp [occursIn, List.isEmpty_iff]
  | cons c t ih =>
    rw [occursIn, List.infix_cons_iff]
    simp [leadsWith_iff, ih]

/-! ## `classify_query_node` (`agent/nodes/classify_node.py`) -/

/-- The fixed trigger keyword list of `classify_query_node`. -/
def web_search_keywords : List String :=
  ["최신", "링크", "홈페이지", "신청 방법", "접수",
   "url", "사이트", "웹사이트", "온라인", "신청서",
   "다운로드", "양식", "공고문"]

/-- Happy path of `classify_query_node`: flag `need_web_search` when any
trigger keyword occurs as a substring of the current query. -/
def classify_query_node (state : QAState) : QAState :=
  { state with
    need_web_search :=
      web_search_keywords.any fun keyword =>
        occursIn keyword.data state.current_query.data }

/-- `classify_query_node` including its `except Exception` branch, which
returns the state with `need_web_search = False` and the error recorded.
The `Option String` argument is the exception message raised by the body
(`none` when no exception occurs). -/
def classify_query_node_catch (exc : Option String) (state : QAState) : QAState :=
  match exc with
  | none => classify_query_node state
  | some e => { state with need_web_search := false, error := some e }

/-! ## `check_sufficiency_node` (`agent/nodes/check_node.py`) -/

/-- Happy path of `check_sufficiency_node`: skip when already flagged,
otherwise require at least 2 documents and an average score of at least
0.75. -/
def check_sufficiency_node (state : QAState) : QAState :=
  if state.need_web_search then state
  else if state.retrieved_docs.length < 2 then
    { state with need_web_search := true }
  else
    let avg_score : ℚ :=
      ((state.retrieved_docs.map (·.score)).sum) / (state.retrieved_docs.length : ℚ)
    if avg_score < 3 / 4 then { state with need_web_search := true }
    else { state with need_web_search := false }

/-- `check_sufficiency_node` including its `except Exception` branch
(lines 74–84 of `check_node.py`): on an internal exception the node
returns `need_web_search = False` and records the message in `error`. -/
def check_sufficiency_node_catch (exc : Option String) (state : QAState) : QAState :=
  match exc with
  | none => check_sufficiency_node state
  | some e => { state with need_web_search := false, error := some e }

/-! ## `should_web_search` (`agent/workflows/qa_workflow.py`) -/

/-- The `Literal["web_search", "generate_answer"]` return type of
`should_web_search`. -/
inductive Route where
  | web_search
  | generate_answer
deriving DecidableEq

/-- Conditional-edge router out of `check_sufficiency`. -/
def should_web_search (state : QAState) : Route :=
  if state.need_web_search then Route.web_search else Route.generate_answer

/-! ## Claim C1 -/

/-- A workflow state with the given retrieved documents and everything else
at the `run_qa_workflow` initial defaults. -/
def stateWithDocs (docs : List RetrievedDoc) : QAState :=
  { session_id := "s", policy_id := 1, messages := [], current_query := "",
    retrieved_docs := docs, web_sources := [], answer := "",
    need_web_search := false, evidence := [], error := none }

/-- A retrieved document carrying only a relevance score. -/
def docWithScore (q : ℚ) : RetrievedDoc :=
  { content := "", score := q, doc_type := "", policy_id := none, chunk_index := 0 }

/-- C1: `check_sufficiency_node` implements the reference sufficiency
policy: with `need_web_search` already true the state is returned
unchanged; otherwise `need_web_search` is set to true iff fewer than 2
passages were retrieved or their mean score is strictly below 0.75.  In
particular scores [0.9, 0.8, 0.76] are sufficient and [0.9, 0.5, 0.5] are
insufficient. -/
theorem check_sufficiency_node_spec (s : QAState) :
    (s.need_web_search = true → check_sufficiency_node s = s) ∧
    (s.need_web_search = false →
      check_sufficiency_node s =
        { s with need_web_search :=
            decide (s.retrieved_docs.length < 2) ||
            decide (((s.retrieved_docs.map (·.score)).sum) /
              (s.retrieved_docs.length : ℚ) < 3 / 4) }) ∧
    (check_sufficiency_node
        (stateWithDocs [docWithScore (9/10), docWithScore (8/10), docWithScore (76/100)])
      ).need_web_search = false ∧
    (check_sufficiency_node
        (stateWithDocs [docWithScore (9/10), docWithScore (5/10), docWithScore (5/10)])
      ).need_web_search = true := by
  refine ⟨fun h => by simp [check_sufficiency_node, h], fun h => ?_, ?_, ?_⟩
  · rw [check_sufficiency_node, if_neg (by simp [h])]
    by_cases hlen : s.retrieved_docs.length < 2
    · rw [if_pos hlen]
      simp [hlen]
    · rw [if_neg hlen]
      by_cases havg : ((s.retrieved_docs.map (·.score)).sum) /
          (s.retrieved_docs.length : ℚ) < 3 / 4
      · rw [if_pos havg]
        simp [hlen, havg]
      · rw [if_neg havg]
        simp [hlen, havg]
  · rw [check_sufficiency_node]
    rw [if_neg (by simp [stateWithDocs]), if_neg (by simp [stateWithDocs])]
    rw [if_neg (by norm_num [stateWithDocs, docWithScore])]
  · rw [check_sufficiency_node]
    rw [if_neg (by simp [stateWithDocs]), if_neg (by simp [stateWithDocs])]
    rw [if_pos (by norm_num [stateWithDocs, docWithScore])]

/-- Witness for C1 at a concrete state with no retrieved passages. -/
theorem check_sufficiency_node_spec_witness :
    check_sufficiency_node (stateWithDocs []) =
      { stateWithDocs [] with need_web_search := true } := by
  have h := (check_sufficiency_node_spec (stateWithDocs [])).2.1 rfl
  rw [h]
  norm_num [stateWithDocs]

/-! ## Claim C9 -/

/-- C9: the classifier sets `need_web_search` to true iff some fixed
keyword occurs as a case-sensitive substring of the query text; the result
depends only on the query text (purity/determinism), and an empty query
yields false. -/
theorem classify_query_node_spec (s : QAState) :
    ((classify_query_node s).need_web_search = true ↔
      ∃ k ∈ web_search_keywords, k.data <:+: s.current_query.data) ∧
    (∀ s' : QAState, s'.current_query = s.current_query →
      (classify_query_node s').need_web_search =
        (classify_query_node s).need_web_search) ∧
    (s.current_query = "" → (classify_query_node s).need_web_search = false) := by
  refine ⟨?_, ?_, ?_⟩
  · simp [classify_query_node, List.any_eq_true, occursIn_iff]
  · intro s' h
    simp [classify_query_node, h]
  · intro h
    simp only [classify_query_node, h]
    decide

/-- Witness for C9: a query containing the keyword meaning "download" is
classified as needing web search. -/
theorem classify_query_node_spec_witness :
    (classify_query_node { stateWithDocs [] with current_query := "양식 다운로드 방법" }
      ).need_web_search = true ∧
    (classify_query_node { stateWithDocs [] with current_query := "" }
      ).need_web_search = false := by
  constructor
  · exact (classify_query_node_spec
      { stateWithDocs [] with current_query := "양식 다운로드 방법" }).1.mpr
      ⟨"다운로드", by decide, by decide⟩
  · exact (classify_query_node_spec
      { stateWithDocs [] with current_query := "" }).2.2 rfl

/-! ## Claim C10 -/

/-- C10: when the body of the sufficiency check raises, the `except`
branch returns the state with `need_web_search = False` and the exception
message in `error`; the router consequently skips web search. -/
theorem check_sufficiency_node_catch_exc (s : QAState) (m : String) :
    check_sufficiency_node_catch (some m) s =
      { s with need_web_search := false, error := some m } ∧
    should_web_search (check_sufficiency_node_catch (some m) s) =
      Route.generate_answer := by
  exact ⟨rfl, rfl⟩

/-! ## Tavily client (`web_search/clients/tavily_client.py`) -/

/-- A raw item of the external Tavily API response (`response["results"]`);
every key may be absent. -/
structure TavilyApiItem where
  title : Option String
  url : Option String
  content : Option String
  score : Option ℚ
  published_date : Option String
deriving DecidableEq

/-- A parsed result dict of `TavilySearchClient.search`, with the `get`
defaults of lines 93–100 already applied. -/
structure TavilyResult where
  title : String
  url : String
  content : String
  score : ℚ
  published_date : Option String
deriving DecidableEq

/-- The parsing of one API item (`item.get("title", "")`, ...). -/
def parse_tavily_item (it : TavilyApiItem) : TavilyResult :=
  { title := it.title.getD "", url := it.url.getD "",
    content := it.content.getD "", score := it.score.getD 0,
    published_date := it.published_date }

/-- Model of a `TavilySearchClient` instance: whether `self.client` was
initialized (an API key was available), and the underlying Tavily API call
as an oracle from (query, max_results) to a response or an exception. -/
structure TavilyClientModel where
  client_initialized : Bool
  api : String → Nat → Except String (List TavilyApiItem)

/-- `TavilySearchClient.search`: returns `[]` when the client is not
initialized, parses the response otherwise, and swallows any exception of
the API call by returning `[]` (lines 121–127). -/
def tavily_client_search (cl : TavilyClientModel) (query : String)
    (max_results : Nat) : List TavilyResult :=
  if !cl.client_initialized then []
  else
    match cl.api query max_results with
    | .error _ => []
    | .ok items => items.map parse_tavily_item

/-! ## `web_search_node` (`agent/nodes/web_search_node.py`) -/

/-- A raw DuckDuckGo text result (`href`, `title`, `body`). -/
structure DdgItem where
  href : String
  title : String
  body : String
deriving DecidableEq

/-- Oracle bundle for one invocation of `web_search_node`. -/
structure WebNodeOracle where
  /-- Whether `settings.tavily_api_key` is set (truthy). -/
  tavily_api_key : Bool
  /-- Exception raised while constructing the Tavily client in
  `get_tavily_client()` (`none` when construction succeeds). -/
  client_init_exc : Option String
  /-- The constructed Tavily client. -/
  tavily_client : TavilyClientModel
  /-- Whether `duckduckgo_search` is importable. -/
  ddg_importable : Bool
  /-- Outcome of the DuckDuckGo `ddgs.text` call. -/
  ddg : Except String (List DdgItem)
  /-- `date.today().isoformat()`. -/
  today : String

/-- The DuckDuckGo fallback block of `web_search_node` (lines 81–120),
including the `except ImportError` branch (empty sources, no error) and
the outer `except Exception` branch for a failing search (empty sources,
error recorded). -/
def web_search_node_ddg (o : WebNodeOracle) (state : QAState) : QAState :=
  if o.ddg_importable then
    match o.ddg with
    | .ok results =>
        { state with
          web_sources := results.map fun r =>
            { url := r.href, title := r.title, snippet := r.body,
              score := none, fetched_date := o.today,
              source_type := "duckduckgo" } }
    | .error e => { state with web_sources := [], error := some e }
  else { state with web_sources := [] }

/-- `web_search_node`: empty query short-circuits; with an API key the
Tavily client is consulted (falling through to DuckDuckGo only when client
construction raises); without an API key DuckDuckGo is consulted
directly. -/
def web_search_node (o : WebNodeOracle) (state : QAState) : QAState :=
  if state.current_query = "" then { state with web_sources := [] }
  else if o.tavily_api_key then
    match o.client_init_exc with
    | some _ => web_search_node_ddg o state
    | none =>
        let results := tavily_client_search o.tavily_client state.current_query 5
        { state with
          web_sources := results.map fun r =>
            { url := r.url, title := r.title, snippet := r.content,
              score := some r.score, fetched_date := o.today,
              source_type := "tavily" } }
  else web_search_node_ddg o state

/-! ## `retrieve_from_db_node` (`agent/nodes/retrieve_node.py`) -/

/-- A Qdrant hit as consumed by `retrieve_from_db_node`, with the payload
`get` defaults already applied. -/
structure RetrievalHit where
  content : String
  score : ℚ
  doc_type : String
  payload_policy_id : Option Int
  chunk_index : Nat
deriving DecidableEq

/-- `retrieve_from_db_node`: empty query yields no documents; otherwise
the embedding + vector search outcome (the oracle) either produces the
passage list or its exception empties the list and records the error. -/
def retrieve_from_db_node (outcome : Except String (List RetrievalHit))
    (state : QAState) : QAState :=
  if state.current_query = "" then { state with retrieved_docs := [] }
  else
    match outcome with
    | .ok results =>
        { state with
          retrieved_docs := results.map fun r =>
            { content := r.content, score := r.score, doc_type := r.doc_type,
              policy_id := r.payload_policy_id, chunk_index := r.chunk_index } }
    | .error e => { state with retrieved_docs := [], error := some e }

/-! ## `generate_answer_node` (`agent/nodes/answer_node.py`) -/

/-- Evidence list built by `generate_answer_node` (lines 79–98): internal
passages first, then web sources, contents truncated to 200 characters. -/
def build_evidence (state : QAState) : List EvidenceItem :=
  (state.retrieved_docs.map fun doc =>
    { type := "internal", source := "정책 문서 (섹션: " ++ doc.doc_type ++ ")",
      content := doc.content.take 200 ++ "...", score := some doc.score,
      url := none, fetched_date := none }) ++
  (state.web_sources.map fun src =>
    { type := "web", source := src.title,
      content := src.snippet.take 200 ++ "...", score := none,
      url := some src.url, fetched_date := some src.fetched_date })

/-- `generate_answer_node`: the oracle is the outcome of the whole `try`
body (policy lookup, prompt rendering and LLM call); on success the
answer and evidence are recorded, on an exception the apologetic answer
replaces it and the error is recorded. -/
def generate_answer_node (outcome : Except String String) (state : QAState) : QAState :=
  match outcome with
  | .ok answer => { state with answer := answer, evidence := build_evidence state }
  | .error e =>
      { state with
        answer := "죄송합니다. 답변 생성 중 오류가 발생했습니다: " ++ e,
        evidence := [], error := some e }

/-! ## `create_qa_workflow` / `run_qa_workflow` (`agent/workflows/qa_workflow.py`) -/

/-- The node names of the compiled `StateGraph`. -/
inductive NodeName where
  | classify_query
  | retrieve_from_db
  | check_sufficiency
  | web_search
  | generate_answer
deriving DecidableEq

/-- Oracle bundle for one workflow invocation. -/
structure WorkflowOracle where
  /-- Exception raised inside `classify_query_node`'s body. -/
  classify_exc : Option String
  /-- Outcome of the embedding + Qdrant search in `retrieve_from_db_node`. -/
  retrieval : Except String (List RetrievalHit)
  /-- Exception raised inside `check_sufficiency_node`'s body. -/
  check_exc : Option String
  /-- Oracles of `web_search_node`. -/
  web : WebNodeOracle
  /-- Outcome of `generate_answer_node`'s body (the generated answer). -/
  llm : Except String String
  /-- Exception raised outside the node bodies (workflow creation,
  compilation or invocation machinery), caught by `run_qa_workflow`'s own
  `except` branch. -/
  top_exc : Option String

/-- One invocation of the compiled graph: the linear edges
`classify_query → retrieve_from_db → check_sufficiency`, the conditional
edge routed by `should_web_search`, and `web_search → generate_answer →
END`.  Returns the final state together with the trace of executed
nodes. -/
def qa_invoke (o : WorkflowOracle) (init : QAState) : QAState × List NodeName :=
  let s1 := classify_query_node_catch o.classify_exc init
  let s2 := retrieve_from_db_node o.retrieval s1
  let s3 := check_sufficiency_node_catch o.check_exc s2
  match should_web_search s3 with
  | Route.web_search =>
      let s4 := web_search_node o.web s3
      (generate_answer_node o.llm s4,
       [NodeName.classify_query, NodeName.retrieve_from_db,
        NodeName.check_sufficiency, NodeName.web_search,
        NodeName.generate_answer])
  | Route.generate_answer =>
      (generate_answer_node o.llm s3,
       [NodeName.classify_query, NodeName.retrieve_from_db,
        NodeName.check_sufficiency, NodeName.generate_answer])

/-- The initial state built by `run_qa_workflow` (lines 142–153). -/
def initial_state (session_id : String) (policy_id : Int) (user_query : String)
    (messages : List (String × String)) : QAState :=
  { session_id := session_id, policy_id := policy_id, messages := messages,
    current_query := user_query, retrieved_docs := [], web_sources := [],
    answer := "", need_web_search := false, evidence := [], error := none }

/-- The keys of the dict `run_qa_workflow` returns that are present on
both its success path (the final state) and its top-level `except` path. -/
structure RunResult where
  session_id : String
  policy_id : Int
  answer : String
  evidence : List EvidenceItem
  error : Option String
deriving DecidableEq

/-- `run_qa_workflow`: invoke the compiled graph, or - when the machinery
itself raises - return the degraded dict of lines 180–186. -/
def run_qa_workflow (o : WorkflowOracle) (session_id : String) (policy_id : Int)
    (user_query : String) (messages : List (String × String)) : RunResult :=
  match o.top_exc with
  | some e =>
      { session_id := session_id, policy_id := policy_id,
        answer := "죄송합니다. 워크플로우 실행 중 오류가 발생했습니다: " ++ e,
        evidence := [], error := some e }
  | none =>
      let final := (qa_invoke o (initial_state session_id policy_id user_query messages)).1
      { session_id := final.session_id, policy_id := final.policy_id,
        answer := final.answer, evidence := final.evidence, error := final.error }

/-! ## Claim C2 -/

/-- C2: one invocation of the compiled workflow executes
`classify_query`, `retrieve_from_db`, `check_sufficiency` in that order,
then `web_search` iff `need_web_search` is true after the check, then
always `generate_answer`; every stage runs at most once. -/
theorem qa_invoke_trace (o : WorkflowOracle) (init : QAState) :
    (qa_invoke o init).2 =
      [NodeName.classify_query, NodeName.retrieve_from_db, NodeName.check_sufficiency] ++
        (if (check_sufficiency_node_catch o.check_exc
              (retrieve_from_db_node o.retrieval
                (classify_query_node_catch o.classify_exc init))).need_web_search
         then [NodeName.web_search] else []) ++
        [NodeName.generate_answer] ∧
    (∀ n : NodeName, ((qa_invoke o init).2.count n) ≤ 1) ∧
    (NodeName.web_search ∈ (qa_invoke o init).2 ↔
      (check_sufficiency_node_catch o.check_exc
        (retrieve_from_db_node o.retrieval
          (classify_query_node_catch o.classify_exc init))).need_web_search = true) := by
  by_cases h : (check_sufficiency_node_catch o.check_exc
      (retrieve_from_db_node o.retrieval
        (classify_query_node_catch o.classify_exc init))).need_web_search
  · have htrace : (qa_invoke o init).2 =
        [NodeName.classify_query, NodeName.retrieve_from_db,
         NodeName.check_sufficiency, NodeName.web_search,
         NodeName.generate_answer] := by
      rw [qa_invoke, should_web_search, if_pos h]
    rw [htrace]
    refine ⟨by rw [if_pos h]; rfl, fun n => ?_, by simp [h]⟩
    cases n <;> decide
  · have htrace : (qa_invoke o init).2 =
        [NodeName.classify_query, NodeName.retrieve_from_db,
         NodeName.check_sufficiency, NodeName.generate_answer] := by
      rw [qa_invoke, should_web_search, if_neg h]
    rw [htrace]
    refine ⟨by rw [if_neg h]; rfl, fun n => ?_, by simp [h]⟩
    cases n <;> decide

/-! ## Relational model (`db/models.py`, `db/repositories/policy_repo.py`) -/

/-- A row of the `policies` table.  `created_at` (a datetime) is modelled
as an integer timestamp; the JSON column `contact_agency` may hold a bare
string or a list of strings. -/
structure Policy where
  id : Int
  program_id : Int
  region : Option String
  category : Option String
  program_name : String
  program_overview : Option String
  support_description : Option String
  support_budget : Option Int
  support_scale : Option String
  supervising_ministry : Option String
  apply_target : Option String
  announcement_date : Option String
  biz_process : Option String
  application_method : Option String
  contact_agency : Option (String ⊕ List String)
  contact_number : Option (List String)
  required_documents : Option (List String)
  collected_date : Option String
  created_at : Int
deriving DecidableEq

/-- The pydantic `PolicyResponse` schema (`domain/policy.py`). -/
structure PolicyResponse where
  id : Int
  program_id : Int
  region : Option String
  category : Option String
  program_name : String
  program_overview : Option String
  support_description : Option String
  support_budget : Option Int
  support_scale : Option String
  supervising_ministry : Option String
  apply_target : Option String
  announcement_date : Option String
  biz_process : Option String
  application_method : Option String
  contact_agency : Option (List String)
  contact_number : Option (List String)
  required_documents : Option (List String)
  collected_date : Option String
  created_at : Option Int
  score : Option ℚ
deriving DecidableEq

/-- Python truthiness of an optional string argument (`if region:` treats
both `None` and `""` as absent). -/
def opt_truthy : Option String → Bool
  | none => false
  | some s => !s.isEmpty

/-- Stable insertion of `x` into a list sorted by `key` in descending
order: `x` goes after every earlier element whose key is not smaller.
Together with `sortDesc` this models Python's stable
`list.sort(key=..., reverse=True)` and SQL `ORDER BY ... DESC`. -/
def insertDesc {α β : Type} [LinearOrder β] (key : α → β) (x : α) :
    List α → List α
  | [] => [x]
  | y :: ys => if key y < key x then x :: y :: ys else y :: insertDesc key x ys

/-- Stable descending sort by `key`. -/
def sortDesc {α β : Type} [LinearOrder β] (key : α → β) : List α → List α
  | [] => []
  | a :: as => insertDesc key a (sortDesc key as)

theorem insertDesc_perm {α β : Type} [LinearOrder β] (key : α → β) (x : α)
    (l : List α) : (insertDesc key x l).Perm (x :: l) := by
  induction l with
  | nil => simp [insertDesc]
  | cons y ys ih =>
    rw [insertDesc]
    by_cases h : key y < key x
    · rw [if_pos h]
    · rw [if_neg h]
      exact ((ih.cons y).trans (List.Perm.swap x y ys))

theorem sortDesc_perm {α β : Type} [LinearOrder β] (key : α → β) (l : List α) :
    (sortDesc key l).Perm l := by
  induction l with
  | nil => simp [sortDesc]
  | cons a as ih =>
    exact (insertDesc_perm key a (sortDesc key as)).trans (ih.cons a)

theorem insertDesc_pairwise {α β : Type} [LinearOrder β] (key : α → β) (x : α)
    (l : List α) (hl : l.Pairwise fun a b => key b ≤ key a) :
    (insertDesc key x l).Pairwise fun a b => key b ≤ key a := by
  induction l with
  | nil => simp [insertDesc]
  | cons y ys ih =>
    rw [insertDesc]
    rcases List.pairwise_cons.mp hl with ⟨hy, hys⟩
    by_cases h : key y < key x
    · rw [if_pos h]
      refine List.pairwise_cons.mpr ⟨?_, hl⟩
      intro b hb
      rcases List.mem_cons.mp hb with rfl | hb2
      · exact le_of_lt h
      · exact (hy b hb2).trans (le_of_lt h)
    · rw [if_neg h]
      refine List.pairwise_cons.mpr ⟨?_, ih hys⟩
      intro b hb
      rcases List.mem_cons.mp ((insertDesc_perm key x ys).mem_iff.mp hb) with rfl | hb2
      · exact not_lt.mp h
      · exact hy b hb2

theorem sortDesc_pairwise {α β : Type} [LinearOrder β] (key : α → β)
    (l : List α) : (sortDesc key l).Pairwise fun a b => key b ≤ key a := by
  induction l with
  | nil => simp [sortDesc]
  | cons a as ih => exact insertDesc_pairwise key a (sortDesc key as) ih

/-- The relational filter shared by `PolicyRepository.search` and
`PolicyRepository.count`: equality filters on `region` and `category`,
each skipped when the argument is falsy. -/
def policy_repo_filtered (db : List Policy) (region category : Option String) :
    List Policy :=
  let q1 := if opt_truthy region then db.filter (fun p => p.region = region) else db
  if opt_truthy category then q1.filter (fun p => p.category = category) else q1

/-- `PolicyRepository.search`: relational filters, optional LIKE filter on
name/overview, `ORDER BY created_at DESC`, then `LIMIT limit OFFSET
offset` (offset applied before limit). -/
def policy_repo_search (db : List Policy) (region category query : Option String)
    (limit offset : Nat) : List Policy :=
  let q2 := policy_repo_filtered db region category
  let q3 :=
    match query with
    | some qs =>
        if qs.isEmpty then q2
        else q2.filter fun p =>
          occursIn qs.data p.program_name.data ||
          occursIn qs.data (p.program_overview.getD "").data
    | none => q2
  ((sortDesc (fun p => p.created_at) q3).drop offset).take limit

/-- `PolicyRepository.count`: exact count under the same relational
filters, with no limit/offset. -/
def policy_repo_count (db : List Policy) (region category : Option String) : Nat :=
  (policy_repo_filtered db region category).length

/-! ## `PolicySearchService` (`services/policy_search_service.py`) -/

/-- A Qdrant hit as consumed by `PolicySearchService._vector_search`:
`result["payload"].get("policy_id")` and `result["score"]`. -/
structure SearchHit where
  payload_policy_id : Option Int
  score : ℚ
deriving DecidableEq

/-- Python truthiness of the payload's `policy_id` (`if policy_id:` skips
both a missing id and the id 0). -/
def truthy_pid : Option Int → Option Int
  | none => none
  | some pid => if pid = 0 then none else some pid

/-- Python-dict lookup on the insertion-ordered association list that
models `policy_scores`. -/
def score_lookup : List (Int × ℚ) → Int → Option ℚ
  | [], _ => none
  | (k, v) :: rest, pid => if pid = k then some v else score_lookup rest pid

/-- One `policy_scores` update: a new id is appended, an existing id keeps
the larger score (`if policy_id not in policy_scores or score >
policy_scores[policy_id]`). -/
def dict_upd : List (Int × ℚ) → Int → ℚ → List (Int × ℚ)
  | [], pid, sc => [(pid, sc)]
  | (k, v) :: rest, pid, sc =>
      if pid = k then (if v < sc then (k, sc) :: rest else (k, v) :: rest)
      else (k, v) :: dict_upd rest pid sc

/-- The `policy_scores` dict after the extraction loop of
`_vector_search` (lines 216–224): insertion-ordered, maximum score per
truthy policy id. -/
def collect_scores (hits : List SearchHit) : List (Int × ℚ) :=
  hits.foldl
    (fun acc h =>
      match truthy_pid h.payload_policy_id with
      | some pid => dict_upd acc pid h.score
      | none => acc)
    []

/-- A `Policy` row with the dynamically attached `score` attribute. -/
structure ScoredPolicy where
  policy : Policy
  score : ℚ
deriving DecidableEq

/-- `PolicySearchService._vector_search`: dedup-by-max over the hits,
fetch the surviving rows (`Policy.id.in_`, relation order), attach
scores, stable-sort descending by score, slice `[offset : offset +
limit]`.  The Qdrant call itself (query embedding, `limit * 2`
candidates, score threshold, filters) is the `hits` oracle. -/
def vector_search (hits : List SearchHit) (db : List Policy)
    (limit offset : Nat) : List ScoredPolicy :=
  let policy_scores := collect_scores hits
  let unique_policy_ids := policy_scores.map Prod.fst
  if unique_policy_ids.isEmpty then []
  else
    let fetched := db.filter fun p => unique_policy_ids.contains p.id
    let scored := fetched.map fun p =>
      { policy := p, score := (score_lookup policy_scores p.id).getD 0 }
    ((sortDesc (fun sp => sp.score) scored).drop offset).take limit

/-- `PolicySearchService._to_response`: copy the row into the response
schema, wrapping a bare-string `contact_agency` into a singleton list. -/
def to_response (policy : Policy) (score : Option ℚ) : PolicyResponse :=
  { id := policy.id, program_id := policy.program_id, region := policy.region,
    category := policy.category, program_name := policy.program_name,
    program_overview := policy.program_overview,
    support_description := policy.support_description,
    support_budget := policy.support_budget,
    support_scale := policy.support_scale,
    supervising_ministry := policy.supervising_ministry,
    apply_target := policy.apply_target,
    announcement_date := policy.announcement_date,
    biz_process := policy.biz_process,
    application_method := policy.application_method,
    contact_agency :=
      match policy.contact_agency with
      | some (Sum.inl s) => some [s]
      | some (Sum.inr l) => some l
      | none => none,
    contact_number := policy.contact_number,
    required_documents := policy.required_documents,
    collected_date := policy.collected_date,
    created_at := some policy.created_at, score := score }

/-- The synthetic response built for the web result at position `idx` of
the enumeration (lines 278–299): sentinel id `-1000 - idx`, fixed
web-search marker fields, current date/time stamps. -/
def web_policy_response (nowStamp : Int) (nowDate : String) (idx : Nat)
    (r : TavilyResult) : PolicyResponse :=
  { id := -1000 - (idx : Int), program_id := -1, region := some "웹 검색",
    category := some "웹 검색 결과", program_name := r.title,
    program_overview := some r.content,
    support_description := some ("출처: " ++ r.url),
    support_budget := some 0, support_scale := some "웹 검색",
    supervising_ministry := some "웹 검색",
    apply_target := some "웹 검색 결과 - 자세한 내용은 출처 링크를 확인하세요",
    announcement_date := some nowDate, biz_process := some "",
    application_method := some ("자세한 내용은 다음 링크를 참고하세요: " ++ r.url),
    contact_agency := some [r.url], contact_number := some [],
    required_documents := some [], collected_date := some nowDate,
    created_at := some nowStamp, score := some r.score }

/-- The `for idx, result in enumerate(web_results)` conversion loop,
with `idx` starting at the given position. -/
def web_responses_from (nowStamp : Int) (nowDate : String) :
    Nat → List TavilyResult → List PolicyResponse
  | _, [] => []
  | idx, r :: rest =>
      web_policy_response nowStamp nowDate idx r ::
        web_responses_from nowStamp nowDate (idx + 1) rest

/-- `PolicySearchService._web_search`: query the Tavily client with the
fixed disambiguating suffix appended, convert every result into a
sentinel-id response (the parsed client results always carry `title`,
`content`, `url` and `score` keys, so the secondary `get` defaults of
lines 283–298 never fire). -/
def service_web_search (cl : TavilyClientModel) (nowStamp : Int)
    (nowDate : String) (query : String) (max_results : Nat) : List PolicyResponse :=
  let web_results := tavily_client_search cl (query ++ " 정부 지원 사업 공고") max_results
  if web_results.isEmpty then []
  else web_responses_from nowStamp nowDate 0 web_results

/-- `PolicySearchService.hybrid_search`.  With a truthy query: vector
search, response conversion, and the low-result web fallback requesting
`limit - total` results (or `limit` when no local result); otherwise the
pure relational search with the exact relational count. -/
def hybrid_search (db : List Policy) (hits : List SearchHit)
    (cl : TavilyClientModel) (nowStamp : Int) (nowDate : String)
    (query region category : Option String) (limit offset : Nat)
    (min_results_for_web_search : Nat) : List PolicyResponse × Nat :=
  if opt_truthy query then
    let policies := vector_search hits db limit offset
    let policy_responses := policies.map fun sp => to_response sp.policy (some sp.score)
    let total := policy_responses.length
    if total < min_results_for_web_search then
      let web_results := service_web_search cl nowStamp nowDate (query.getD "")
        (if 0 < total then limit - total else limit)
      if web_results.isEmpty then (policy_responses, total)
      else (policy_responses ++ web_results, (policy_responses ++ web_results).length)
    else (policy_responses, total)
  else
    let policies := policy_repo_search db region category none limit offset
    let total := policy_repo_count db region category
    (policies.map fun p => to_response p none, total)

theorem sortDesc_slice_pairwise {α β : Type} [LinearOrder β] (key : α → β)
    (l : List α) (n m : Nat) :
    (((sortDesc key l).drop n).take m).Pairwise fun a b => key b ≤ key a :=
  List.Pairwise.sublist
    ((List.take_sublist _ _).trans (List.drop_sublist _ _))
    (sortDesc_pairwise key l)

/-! ## Claim C6 -/

/-- C6: with the query absent, `hybrid_search` is a pure relational filter
with pagination: the records come from `PolicyRepository.search` ordered
by `created_at` descending, and the returned total is the exact
relational count, independent of `limit` and `offset`. -/
theorem hybrid_search_no_query (db : List Policy) (hits : List SearchHit)
    (cl : TavilyClientModel) (nowStamp : Int) (nowDate : String)
    (region category : Option String) (limit offset min_results : Nat) :
    (hybrid_search db hits cl nowStamp nowDate none region category
        limit offset min_results).1 =
      (policy_repo_search db region category none limit offset).map
        (fun p => to_response p none) ∧
    (hybrid_search db hits cl nowStamp nowDate none region category
        limit offset min_results).2 = policy_repo_count db region category ∧
    List.Pairwise (fun a b => b ≤ a)
      (((hybrid_search db hits cl nowStamp nowDate none region category
          limit offset min_results).1).map fun r => r.created_at.getD 0) ∧
    (∀ limit' offset' : Nat,
      (hybrid_search db hits cl nowStamp nowDate none region category
          limit' offset' min_results).2 =
        (hybrid_search db hits cl nowStamp nowDate none region category
          limit offset min_results).2) := by
  refine ⟨rfl, rfl, ?_, fun limit' offset' => rfl⟩
  have h1 : (hybrid_search db hits cl nowStamp nowDate none region category
      limit offset min_results).1 =
      (policy_repo_search db region category none limit offset).map
        (fun p => to_response p none) := rfl
  rw [h1, List.map_map]
  have h2 : ((fun r : PolicyResponse => r.created_at.getD 0) ∘
      fun p => to_response p none) = fun p : Policy => p.created_at := by
    funext p
    rfl
  rw [h2, policy_repo_search]
  exact List.pairwise_map.mpr (sortDesc_slice_pairwise _ _ _ _)

/-! ## Dedup-by-max characterisation of `collect_scores` -/

/-- Merging one further score into the running best. -/
def bump (cur : Option ℚ) (sc : ℚ) : Option ℚ :=
  match cur with
  | none => some sc
  | some v => some (max v sc)

/-- Reference maximum: the running best score for `pid` over the hits,
starting from `cur`. -/
def best_score (pid : Int) : List SearchHit → Option ℚ → Option ℚ
  | [], cur => cur
  | h :: rest, cur =>
      if truthy_pid h.payload_policy_id = some pid then
        best_score pid rest (bump cur h.score)
      else best_score pid rest cur

theorem score_lookup_dict_upd (acc : List (Int × ℚ)) (pid : Int) (sc : ℚ)
    (pid' : Int) :
    score_lookup (dict_upd acc pid sc) pid' =
      if pid' = pid then bump (score_lookup acc pid') sc
      else score_lookup acc pid' := by
  induction acc with
  | nil =>
    by_cases h : pid' = pid
    · simp [dict_upd, score_lookup, h, bump]
    · simp [dict_upd, score_lookup, h]
  | cons kv rest ih =>
    obtain ⟨k, v⟩ := kv
    by_cases hk : pid = k
    · subst hk
      by_cases hv : v < sc
      · rw [dict_upd, if_pos rfl, if_pos hv]
        by_cases h' : pid' = pid
        · simp [score_lookup, h', bump, max_eq_right hv.le]
        · simp [score_lookup, h']
      · rw [dict_upd, if_pos rfl, if_neg hv]
        by_cases h' : pid' = pid
        · simp [score_lookup, h', bump, max_eq_left (not_lt.mp hv)]
        · simp [score_lookup, h']
    · rw [dict_upd, if_neg hk]
      by_cases h' : pid' = k
      · have hne : ¬ pid' = pid := fun hc => hk (hc.symm.trans h')
        have hne2 : ¬ k = pid := fun hc => hk hc.symm
        simp [score_lookup, h', hne, hne2]
      · simp only [score_lookup, if_neg h']
        exact ih

theorem best_score_cons (pid : Int) (h : SearchHit) (rest : List SearchHit)
    (cur : Option ℚ) :
    best_score pid (h :: rest) cur =
      if truthy_pid h.payload_policy_id = some pid then
        best_score pid rest (bump cur h.score)
      else best_score pid rest cur := rfl

theorem score_lookup_foldl (hits : List SearchHit) (acc : List (Int × ℚ))
    (pid : Int) :
    score_lookup
      (hits.foldl
        (fun acc h =>
          match truthy_pid h.payload_policy_id with
          | some pid => dict_upd acc pid h.score
          | none => acc) acc) pid =
      best_score pid hits (score_lookup acc pid) := by
  induction hits generalizing acc with
  | nil => rfl
  | cons h rest ih =>
    rw [List.foldl_cons, best_score_cons]
    cases htp : truthy_pid h.payload_policy_id with
    | none =>
      rw [if_neg (by simp [htp])]
      exact ih acc
    | some pid'' =>
      by_cases hp : pid'' = pid
      · rw [if_pos (by rw [hp])]
        have hstep := ih (dict_upd acc pid'' h.score)
        rw [score_lookup_dict_upd, if_pos hp.symm] at hstep
        exact hstep
      · rw [if_neg (by simp [hp])]
        have hstep := ih (dict_upd acc pid'' h.score)
        rw [score_lookup_dict_upd, if_neg (fun hc => hp hc.symm)] at hstep
        exact hstep

theorem score_lookup_collect_scores (hits : List SearchHit) (pid : Int) :
    score_lookup (collect_scores hits) pid = best_score pid hits none :=
  score_lookup_foldl hits [] pid

theorem best_score_spec (pid : Int) (hits : List SearchHit) :
    ∀ (cur : Option ℚ) (v : ℚ), best_score pid hits cur = some v →
      ((∃ h ∈ hits, truthy_pid h.payload_policy_id = some pid ∧ h.score = v) ∨
        cur = some v) ∧
      (∀ h ∈ hits, truthy_pid h.payload_policy_id = some pid → h.score ≤ v) ∧
      (∀ w, cur = some w → w ≤ v) := by
  induction hits with
  | nil =>
    intro cur v hv
    refine ⟨Or.inr hv, by simp, fun w hw => ?_⟩
    rw [hw] at hv
    exact le_of_eq (Option.some_injective _ hv)
  | cons h rest ih =>
    intro cur v hv
    rw [best_score_cons] at hv
    by_cases htp : truthy_pid h.payload_policy_id = some pid
    · rw [if_pos htp] at hv
      obtain ⟨H1, H2, H3⟩ := ih _ v hv
      have hbump : ∀ w, bump cur h.score = some w → w ≤ v := H3
      have hcur' : ∀ w, cur = some w → w ≤ v := by
        intro w hw
        subst hw
        exact le_trans (le_max_left w h.score) (hbump _ rfl)
      have hself : h.score ≤ v := by
        cases hc : cur with
        | none =>
          refine hbump h.score ?_
          rw [hc]
          rfl
        | some v0 =>
          refine le_trans (le_max_right v0 h.score) (hbump (max v0 h.score) ?_)
          rw [hc]
          rfl
      refine ⟨?_, ?_, hcur'⟩
      · rcases H1 with ⟨h', hh', htp', hsc'⟩ | Hc
        · exact Or.inl ⟨h', List.mem_cons_of_mem h hh', htp', hsc'⟩
        · cases hcur : cur with
          | none =>
            rw [hcur] at Hc
            exact Or.inl ⟨h, List.mem_cons_self h rest, htp,
              Option.some_injective _ Hc⟩
          | some v0 =>
            rw [hcur] at Hc
            have hmax : max v0 h.score = v := Option.some_injective _ Hc
            rcases max_choice v0 h.score with hm | hm
            · refine Or.inr ?_
              exact congrArg some (hm.symm.trans hmax)
            · exact Or.inl ⟨h, List.mem_cons_self h rest, htp,
                hm.symm.trans hmax⟩
      · intro h' hh' htp'
        rcases List.mem_cons.mp hh' with rfl | hh2
        · exact hself
        · exact H2 h' hh2 htp'
    · rw [if_neg htp] at hv
      obtain ⟨H1, H2, H3⟩ := ih _ v hv
      refine ⟨?_, ?_, H3⟩
      · rcases H1 with ⟨h', hh', htp', hsc'⟩ | Hc
        · exact Or.inl ⟨h', List.mem_cons_of_mem h hh', htp', hsc'⟩
        · exact Or.inr Hc
      · intro h' hh' htp'
        rcases List.mem_cons.mp hh' with rfl | hh2
        · exact absurd htp' htp
        · exact H2 h' hh2 htp'

theorem score_lookup_isSome (acc : List (Int × ℚ)) (pid : Int) :
    (score_lookup acc pid).isSome = true ↔ pid ∈ acc.map Prod.fst := by
  induction acc with
  | nil => simp [score_lookup]
  | cons kv rest ih =>
    obtain ⟨k, v⟩ := kv
    by_cases h : pid = k
    · simp [score_lookup, h]
    · simp [score_lookup, h, ih]

/-! ## Sentinel ids of the synthetic web responses -/

theorem web_responses_from_id_le (nowStamp : Int) (nowDate : String)
    (i : Nat) (l : List TavilyResult) :
    ∀ w ∈ web_responses_from nowStamp nowDate i l, w.id ≤ -1000 - (i : Int) := by
  induction l generalizing i with
  | nil => simp [web_responses_from]
  | cons r rest ih =>
    intro w hw
    rcases List.mem_cons.mp hw with rfl | hw2
    · exact le_refl _
    · refine le_trans (ih (i + 1) w hw2) ?_
      push_cast
      omega

theorem web_responses_from_id_strict (nowStamp : Int) (nowDate : String)
    (i : Nat) (l : List TavilyResult) :
    (web_responses_from nowStamp nowDate i l).Pairwise fun a b => b.id < a.id := by
  induction l generalizing i with
  | nil => simp [web_responses_from]
  | cons r rest ih =>
    rw [web_responses_from]
    refine List.pairwise_cons.mpr ⟨?_, ih (i + 1)⟩
    intro w hw
    refine lt_of_le_of_lt (web_responses_from_id_le nowStamp nowDate (i + 1) rest w hw) ?_
    show -1000 - ((i : Int) + 1) < (web_policy_response nowStamp nowDate i r).id
    show -1000 - ((i : Int) + 1) < -1000 - (i : Int)
    omega

theorem web_responses_from_length (nowStamp : Int) (nowDate : String)
    (i : Nat) (l : List TavilyResult) :
    (web_responses_from nowStamp nowDate i l).length = l.length := by
  induction l generalizing i with
  | nil => rfl
  | cons r rest ih => simp [web_responses_from, ih]

/-! ## Structure of `_vector_search` results -/

theorem vector_search_mem (hits : List SearchHit) (db : List Policy)
    (limit offset : Nat) (sp : ScoredPolicy)
    (hsp : sp ∈ vector_search hits db limit offset) :
    sp.policy ∈ db ∧
    score_lookup (collect_scores hits) sp.policy.id = some sp.score := by
  rw [vector_search] at hsp
  by_cases hempty : ((collect_scores hits).map Prod.fst).isEmpty
  · rw [if_pos hempty] at hsp
    exact absurd hsp (List.not_mem_nil sp)
  · rw [if_neg hempty] at hsp
    have h1 : sp ∈ sortDesc (fun sp => sp.score)
        ((db.filter fun p => ((collect_scores hits).map Prod.fst).contains p.id).map
          fun p => { policy := p, score := (score_lookup (collect_scores hits) p.id).getD 0 }) :=
      ((List.take_sublist _ _).trans (List.drop_sublist _ _)).mem hsp
    have h2 := (sortDesc_perm _ _).mem_iff.mp h1
    obtain ⟨p, hpmem, rfl⟩ := List.mem_map.mp h2
    obtain ⟨hpdb, hpf⟩ := List.mem_filter.mp hpmem
    have hin : p.id ∈ (collect_scores hits).map Prod.fst :=
      List.mem_of_elem_eq_true hpf
    obtain ⟨v, hv⟩ := Option.isSome_iff_exists.mp
      ((score_lookup_isSome (collect_scores hits) p.id).mpr hin)
    exact ⟨hpdb, by simp [hv]⟩

theorem vector_search_ids_nodup (hits : List SearchHit) (db : List Policy)
    (limit offset : Nat) (hdb : (db.map fun p => p.id).Nodup) :
    ((vector_search hits db limit offset).map fun sp => sp.policy.id).Nodup := by
  rw [vector_search]
  by_cases hempty : ((collect_scores hits).map Prod.fst).isEmpty
  · rw [if_pos hempty]
    simp
  · rw [if_neg hempty]
    set fetched := db.filter fun p =>
      ((collect_scores hits).map Prod.fst).contains p.id with hfetched
    set scored := fetched.map fun p =>
      ({ policy := p, score := (score_lookup (collect_scores hits) p.id).getD 0 } :
        ScoredPolicy) with hscored
    have hnodup_fetched : (fetched.map fun p => p.id).Nodup :=
      List.Nodup.sublist (List.Sublist.map _ (List.filter_sublist db)) hdb
    have hnodup_scored : (scored.map fun sp => sp.policy.id).Nodup := by
      rw [hscored, List.map_map]
      exact hnodup_fetched
    have hnodup_sorted :
        ((sortDesc (fun sp => sp.score) scored).map fun sp => sp.policy.id).Nodup :=
      (((sortDesc_perm (fun sp : ScoredPolicy => sp.score) scored).map
        fun sp => sp.policy.id).nodup_iff).mpr hnodup_scored
    exact List.Nodup.sublist
      (List.Sublist.map _ ((List.take_sublist _ _).trans (List.drop_sublist _ _)))
      hnodup_sorted

theorem vector_search_scores_sorted (hits : List SearchHit) (db : List Policy)
    (limit offset : Nat) :
    List.Pairwise (fun a b => b ≤ a)
      ((vector_search hits db limit offset).map fun sp => sp.score) := by
  rw [vector_search]
  by_cases hempty : ((collect_scores hits).map Prod.fst).isEmpty
  · rw [if_pos hempty]
    simp
  · rw [if_neg hempty]
    exact List.pairwise_map.mpr (sortDesc_slice_pairwise _ _ _ _)

theorem service_web_search_neg (cl : TavilyClientModel) (nowStamp : Int)
    (nowDate : String) (q : String) (m : Nat) :
    ∀ w ∈ service_web_search cl nowStamp nowDate q m, w.id < 0 := by
  rw [service_web_search]
  by_cases hempty : (tavily_client_search cl (q ++ " 정부 지원 사업 공고") m).isEmpty
  · rw [if_pos hempty]
    simp
  · rw [if_neg hempty]
    intro w hw
    have := web_responses_from_id_le nowStamp nowDate 0 _ w hw
    omega

theorem service_web_search_ids_nodup (cl : TavilyClientModel) (nowStamp : Int)
    (nowDate : String) (q : String) (m : Nat) :
    ((service_web_search cl nowStamp nowDate q m).map fun r => r.id).Nodup := by
  rw [service_web_search]
  by_cases hempty : (tavily_client_search cl (q ++ " 정부 지원 사업 공고") m).isEmpty
  · rw [if_pos hempty]
    simp
  · rw [if_neg hempty]
    refine List.pairwise_map.mpr ?_
    exact (web_responses_from_id_strict nowStamp nowDate 0 _).imp
      (fun hlt => ne_of_gt hlt)

/-! ## Claim C4 -/

/-- A catalog row with the given id and neutral contents. -/
def plainPolicy (i : Int) : Policy :=
  { id := i, program_id := i, region := none, category := none,
    program_name := "정책", program_overview := none,
    support_description := none, support_budget := none, support_scale := none,
    supervising_ministry := none, apply_target := none,
    announcement_date := none, biz_process := none, application_method := none,
    contact_agency := none, contact_number := none, required_documents := none,
    collected_date := none, created_at := 0 }

/-- A Tavily client whose API always returns a single result scored
0.95. -/
def highScoreWebClient : TavilyClientModel :=
  { client_initialized := true,
    api := fun _ _ => Except.ok
      [{ title := some "웹 문서", url := some "https://example.org",
         content := some "본문", score := some (19/20),
         published_date := none }] }

/-- The hybrid search of the C4 scenario: one catalog row, duplicate
vector hits for it (scores 0.9 and 0.8), limit 5. -/
def c4_search : List PolicyResponse × Nat :=
  hybrid_search [plainPolicy 1]
    [{ payload_policy_id := some 1, score := 9/10 },
     { payload_policy_id := some 1, score := 8/10 }]
    highScoreWebClient 0 "2026-10-12" (some "지원") none none 5 0 3

/-- C4 counterexample: dedup-by-max keeps the one local record at score
0.9, the low-result fallback then appends a web-derived record scored
0.95 after it, so the returned sequence [0.9, 0.95] is not strictly
descending by kept score. -/
theorem c4_not_strictly_descending :
    (c4_search.1.map fun r => r.score) = [some (9/10), some (19/20)] ∧
    ¬ List.Pairwise (fun a b : PolicyResponse =>
        b.score.getD 0 < a.score.getD 0) c4_search.1 := by
  have hcollect : collect_scores
      [{ payload_policy_id := some 1, score := 9/10 },
       { payload_policy_id := some 1, score := 8/10 }] = [(1, (9:ℚ)/10)] := by
    simp only [collect_scores, List.foldl_cons, List.foldl_nil]
    norm_num [truthy_pid, dict_upd]
  have hvs : vector_search
      [{ payload_policy_id := some 1, score := 9/10 },
       { payload_policy_id := some 1, score := 8/10 }]
      [plainPolicy 1] 5 0 =
      [{ policy := plainPolicy 1, score := (9:ℚ)/10 }] := by
    rw [vector_search, hcollect]
    norm_num [score_lookup, sortDesc, insertDesc, plainPolicy]
  have htav : tavily_client_search highScoreWebClient
      ("지원" ++ " 정부 지원 사업 공고") 4 =
      [{ title := "웹 문서", url := "https://example.org", content := "본문",
         score := (19:ℚ)/20, published_date := none }] := by
    rw [tavily_client_search]
    simp [highScoreWebClient, parse_tavily_item]
  have hsvc : service_web_search highScoreWebClient 0 "2026-10-12" "지원" 4 =
      [web_policy_response 0 "2026-10-12" 0
        { title := "웹 문서", url := "https://example.org", content := "본문",
          score := (19:ℚ)/20, published_date := none }] := by
    rw [service_web_search, htav]
    simp [web_responses_from]
  have hresult : c4_search.1 =
      [to_response (plainPolicy 1) (some ((9:ℚ)/10)),
       web_policy_response 0 "2026-10-12" 0
        { title := "웹 문서", url := "https://example.org", content := "본문",
          score := (19:ℚ)/20, published_date := none }] := by
    simp only [c4_search, hybrid_search, hvs]
    norm_num [opt_truthy, hsvc]
    rfl
  have hmap : (c4_search.1.map fun r => r.score) =
      [some ((9:ℚ)/10), some ((19:ℚ)/20)] := by
    rw [hresult]
    simp [to_response, web_policy_response]
  refine ⟨hmap, fun hpair => ?_⟩
  have h2 : List.Pairwise (fun a b : Option ℚ => b.getD 0 < a.getD 0)
      (c4_search.1.map fun r => r.score) := List.pairwise_map.mpr hpair
  rw [hmap] at h2
  have h3 := (List.pairwise_cons.mp h2).1 (some ((19:ℚ)/20)) (by simp)
  norm_num at h3

/-- C4 as amended: in a query-driven hybrid search, dedup-by-max holds
(each local record's kept score is the maximum hit score for its id and
an attained one), local record ids are unique and local scores are
non-increasing (not strictly decreasing: equal kept scores are possible);
web-fallback records are appended after the local block, carry distinct
negative sentinel ids and are not merged into the score ordering; with
nonnegative catalog ids the ids of the whole returned set are unique. -/
theorem hybrid_search_query_ranking
    (db : List Policy) (hits : List SearchHit) (cl : TavilyClientModel)
    (nowStamp : Int) (nowDate : String) (q : String)
    (region category : Option String) (limit offset min_results : Nat)
    (hdb : (db.map fun p => p.id).Nodup)
    (hpos : ∀ p ∈ db, 0 ≤ p.id) :
    (∀ sp ∈ vector_search hits db limit offset,
        (∃ h ∈ hits, truthy_pid h.payload_policy_id = some sp.policy.id ∧
          h.score = sp.score) ∧
        (∀ h ∈ hits, truthy_pid h.payload_policy_id = some sp.policy.id →
          h.score ≤ sp.score)) ∧
    ((vector_search hits db limit offset).map fun sp => sp.policy.id).Nodup ∧
    List.Pairwise (fun a b => b ≤ a)
      ((vector_search hits db limit offset).map fun sp => sp.score) ∧
    (q.isEmpty = false →
      ∃ webR,
        (hybrid_search db hits cl nowStamp nowDate (some q) region category
            limit offset min_results).1 =
          ((vector_search hits db limit offset).map fun sp =>
            to_response sp.policy (some sp.score)) ++ webR ∧
        (∀ w ∈ webR, w.id < 0) ∧
        (webR.map fun r => r.id).Nodup ∧
        ((hybrid_search db hits cl nowStamp nowDate (some q) region category
            limit offset min_results).1.map fun r => r.id).Nodup) := by
  have hids : ∀ a ∈ ((vector_search hits db limit offset).map fun sp =>
      to_response sp.policy (some sp.score)).map (fun r => r.id), 0 ≤ a := by
    intro a ha
    rw [List.map_map] at ha
    obtain ⟨sp, hsp, rfl⟩ := List.mem_map.mp ha
    exact hpos sp.policy ((vector_search_mem hits db limit offset sp hsp).1)
  have hmaplocal : ((vector_search hits db limit offset).map fun sp =>
      to_response sp.policy (some sp.score)).map (fun r => r.id) =
      (vector_search hits db limit offset).map fun sp => sp.policy.id := by
    rw [List.map_map]
    rfl
  refine ⟨?_, vector_search_ids_nodup hits db limit offset hdb,
    vector_search_scores_sorted hits db limit offset, ?_⟩
  · intro sp hsp
    obtain ⟨_, hlook⟩ := vector_search_mem hits db limit offset sp hsp
    rw [score_lookup_collect_scores] at hlook
    obtain ⟨H1, H2, _⟩ := best_score_spec sp.policy.id hits none sp.score hlook
    refine ⟨?_, H2⟩
    rcases H1 with H1 | H1
    · exact H1
    · exact absurd H1 (by simp)
  · intro hq
    have htruthy : opt_truthy (some q) = true := by simp [opt_truthy, hq]
    have hnodup_local : (((vector_search hits db limit offset).map fun sp =>
        to_response sp.policy (some sp.score)).map (fun r => r.id)).Nodup := by
      rw [hmaplocal]
      exact vector_search_ids_nodup hits db limit offset hdb
    rw [hybrid_search, if_pos htruthy]
    by_cases h1 : ((vector_search hits db limit offset).map fun sp =>
        to_response sp.policy (some sp.score)).length < min_results
    · rw [if_pos h1]
      by_cases h2 : (service_web_search cl nowStamp nowDate ((some q).getD "")
          (if 0 < ((vector_search hits db limit offset).map fun sp =>
            to_response sp.policy (some sp.score)).length
           then limit - ((vector_search hits db limit offset).map fun sp =>
            to_response sp.policy (some sp.score)).length
           else limit)).isEmpty
      · rw [if_pos h2]
        exact ⟨[], by simp, by simp, by simp, by simpa using hnodup_local⟩
      · rw [if_neg h2]
        refine ⟨_, rfl, service_web_search_neg _ _ _ _ _,
          service_web_search_ids_nodup _ _ _ _ _, ?_⟩
        rw [List.map_append]
        refine List.Nodup.append hnodup_local
          (service_web_search_ids_nodup _ _ _ _ _) ?_
        intro a ha hb
        obtain ⟨w, hw, rfl⟩ := List.mem_map.mp hb
        exact absurd (service_web_search_neg _ _ _ _ _ w hw)
          (not_lt.mpr (hids _ ha))
    · rw [if_neg h1]
      exact ⟨[], by simp, by simp, by simp, by simpa using hnodup_local⟩

/-- Witness for C4 at the concrete C4 scenario inputs. -/
theorem hybrid_search_query_ranking_witness :
    ∃ webR, c4_search.1 =
      ((vector_search
          [{ payload_policy_id := some 1, score := 9/10 },
           { payload_policy_id := some 1, score := 8/10 }]
          [plainPolicy 1] 5 0).map fun sp =>
        to_response sp.policy (some sp.score)) ++ webR ∧
      (∀ w ∈ webR, w.id < 0) ∧
      (webR.map fun r => r.id).Nodup ∧
      (c4_search.1.map fun r => r.id).Nodup := by
  exact (hybrid_search_query_ranking [plainPolicy 1]
    [{ payload_policy_id := some 1, score := 9/10 },
     { payload_policy_id := some 1, score := 8/10 }]
    highScoreWebClient 0 "2026-10-12" "지원" none none 5 0 3
    (by decide) (by decide)).2.2.2 (by decide)

/-! ## Claim C5 -/

/-- The `policy_responses` list of `hybrid_search`'s query branch before
the fallback. -/
def local_responses (hits : List SearchHit) (db : List Policy)
    (limit offset : Nat) : List PolicyResponse :=
  (vector_search hits db limit offset).map fun sp =>
    to_response sp.policy (some sp.score)

/-- The `max_results` argument of the fallback call
(`limit - total if total > 0 else limit`). -/
def fallback_max_results (limit total : Nat) : Nat :=
  if 0 < total then limit - total else limit

theorem tavily_client_search_length_le (cl : TavilyClientModel) (q : String)
    (n : Nat) (hapi : ∀ s k items, cl.api s k = Except.ok items → items.length ≤ k) :
    (tavily_client_search cl q n).length ≤ n := by
  rw [tavily_client_search]
  by_cases hinit : cl.client_initialized
  · rw [if_neg (by simp [hinit])]
    cases hcall : cl.api q n with
    | error e => simp
    | ok items => simpa using hapi q n items hcall
  · rw [if_pos (by simp [hinit])]
    simp

theorem service_web_search_length_le (cl : TavilyClientModel) (nowStamp : Int)
    (nowDate : String) (q : String) (m : Nat)
    (hapi : ∀ s k items, cl.api s k = Except.ok items → items.length ≤ k) :
    (service_web_search cl nowStamp nowDate q m).length ≤ m := by
  rw [service_web_search]
  by_cases hempty : (tavily_client_search cl (q ++ " 정부 지원 사업 공고") m).isEmpty
  · rw [if_pos hempty]
    simp
  · rw [if_neg hempty, web_responses_from_length]
    exact tavily_client_search_length_le cl _ m hapi

theorem vector_search_length_le (hits : List SearchHit) (db : List Policy)
    (limit offset : Nat) : (vector_search hits db limit offset).length ≤ limit := by
  rw [vector_search]
  by_cases hempty : ((collect_scores hits).map Prod.fst).isEmpty
  · rw [if_pos hempty]
    simp
  · rw [if_neg hempty]
    simp [List.length_take]

/-- C5: with a truthy query and a Tavily provider honouring its
`max_results` contract, a local result count below the configured minimum
triggers the web fallback: the Tavily client is invoked with the query
plus the fixed suffix " 정부 지원 사업 공고" and asked for `limit - total`
results (`limit` when no local result); the synthetic records appended
all carry distinct negative sentinel ids; the returned total equals the
combined returned count, the result never exceeds `limit` records, and
for 1 local result with `limit = 5` at most 4 web records are appended. -/
theorem hybrid_search_web_fallback
    (db : List Policy) (hits : List SearchHit) (cl : TavilyClientModel)
    (nowStamp : Int) (nowDate : String) (q : String)
    (region category : Option String) (limit offset min_results : Nat)
    (hq : q.isEmpty = false)
    (hapi : ∀ s k items, cl.api s k = Except.ok items → items.length ≤ k) :
    (service_web_search cl nowStamp nowDate q
        (fallback_max_results limit (local_responses hits db limit offset).length) =
      (if (tavily_client_search cl (q ++ " 정부 지원 사업 공고")
            (fallback_max_results limit (local_responses hits db limit offset).length)).isEmpty
       then []
       else web_responses_from nowStamp nowDate 0
         (tavily_client_search cl (q ++ " 정부 지원 사업 공고")
           (fallback_max_results limit (local_responses hits db limit offset).length)))) ∧
    ((local_responses hits db limit offset).length < min_results →
      (hybrid_search db hits cl nowStamp nowDate (some q) region category
          limit offset min_results).1 =
        local_responses hits db limit offset ++
          service_web_search cl nowStamp nowDate q
            (fallback_max_results limit (local_responses hits db limit offset).length) ∧
      (hybrid_search db hits cl nowStamp nowDate (some q) region category
          limit offset min_results).2 =
        (local_responses hits db limit offset).length +
          (service_web_search cl nowStamp nowDate q
            (fallback_max_results limit (local_responses hits db limit offset).length)).length) ∧
    (min_results ≤ (local_responses hits db limit offset).length →
      (hybrid_search db hits cl nowStamp nowDate (some q) region category
          limit offset min_results).1 = local_responses hits db limit offset ∧
      (hybrid_search db hits cl nowStamp nowDate (some q) region category
          limit offset min_results).2 =
        (local_responses hits db limit offset).length) ∧
    (∀ w ∈ service_web_search cl nowStamp nowDate q
        (fallback_max_results limit (local_responses hits db limit offset).length),
      w.id < 0) ∧
    ((service_web_search cl nowStamp nowDate q
        (fallback_max_results limit (local_responses hits db limit offset).length)).map
      fun r => r.id).Nodup ∧
    (service_web_search cl nowStamp nowDate q
        (fallback_max_results limit (local_responses hits db limit offset).length)).length ≤
      fallback_max_results limit (local_responses hits db limit offset).length ∧
    ((hybrid_search db hits cl nowStamp nowDate (some q) region category
        limit offset min_results).1.length ≤ limit) ∧
    ((local_responses hits db limit offset).length = 1 → limit = 5 →
      (service_web_search cl nowStamp nowDate q
        (fallback_max_results limit (local_responses hits db limit offset).length)).length ≤ 4) := by
  have htruthy : opt_truthy (some q) = true := by simp [opt_truthy, hq]
  have hlen_local : (local_responses hits db limit offset).length ≤ limit := by
    rw [local_responses, List.length_map]
    exact vector_search_length_le hits db limit offset
  have hlen_web := service_web_search_length_le cl nowStamp nowDate q
    (fallback_max_results limit (local_responses hits db limit offset).length) hapi
  have hbranch :
      (hybrid_search db hits cl nowStamp nowDate (some q) region category
        limit offset min_results) =
      (if (local_responses hits db limit offset).length < min_results then
        (if (service_web_search cl nowStamp nowDate q
              (fallback_max_results limit (local_responses hits db limit offset).length)).isEmpty
         then (local_responses hits db limit offset,
               (local_responses hits db limit offset).length)
         else (local_responses hits db limit offset ++
                service_web_search cl nowStamp nowDate q
                  (fallback_max_results limit (local_responses hits db limit offset).length),
               (local_responses hits db limit offset ++
                service_web_search cl nowStamp nowDate q
                  (fallback_max_results limit (local_responses hits db limit offset).length)).length))
       else (local_responses hits db limit offset,
             (local_responses hits db limit offset).length)) := by
    rw [hybrid_search, if_pos htruthy]
    rfl
  refine ⟨rfl, ?_, ?_, service_web_search_neg _ _ _ _ _,
    service_web_search_ids_nodup _ _ _ _ _, hlen_web, ?_, ?_⟩
  · intro hlt
    rw [hbranch, if_pos hlt]
    by_cases hW : (service_web_search cl nowStamp nowDate q
        (fallback_max_results limit (local_responses hits db limit offset).length)).isEmpty
    · rw [if_pos hW]
      have hWnil : service_web_search cl nowStamp nowDate q
          (fallback_max_results limit (local_responses hits db limit offset).length) = [] :=
        List.isEmpty_iff.mp hW
      rw [hWnil]
      simp
    · rw [if_neg hW]
      simp [List.length_append]
  · intro hge
    rw [hbranch, if_neg (not_lt.mpr hge)]
    exact ⟨rfl, rfl⟩
  · rw [hbranch]
    by_cases hlt : (local_responses hits db limit offset).length < min_results
    · rw [if_pos hlt]
      by_cases hW : (service_web_search cl nowStamp nowDate q
          (fallback_max_results limit (local_responses hits db limit offset).length)).isEmpty
      · rw [if_pos hW]
        exact hlen_local
      · rw [if_neg hW]
        rw [List.length_append]
        have hsum : (local_responses hits db limit offset).length +
            fallback_max_results limit
              (local_responses hits db limit offset).length ≤ limit := by
          rw [fallback_max_results]
          by_cases h0 : 0 < (local_responses hits db limit offset).length
          · rw [if_pos h0]
            omega
          · rw [if_neg h0]
            omega
        omega
    · rw [if_neg hlt]
      exact hlen_local
  · intro h1 h5
    rw [h1, h5]
    have h4 : fallback_max_results 5 1 = 4 := by
      rw [fallback_max_results]
      norm_num
    rw [h4]
    exact service_web_search_length_le cl nowStamp nowDate q 4 hapi

/-- A Tavily client honouring the `max_results` contract: its API returns
at most the requested number of results. -/
def cappedWebClient : TavilyClientModel :=
  { client_initialized := true,
    api := fun _ n => Except.ok
      (List.take n
        [{ title := some "웹 문서", url := some "https://example.org",
           content := some "본문", score := some (19/20),
           published_date := none }]) }

/-- Witness for C5: one local record and `limit = 5` yield at most 4
appended web records and at most 5 records in total. -/
theorem hybrid_search_web_fallback_witness :
    (hybrid_search [plainPolicy 1] [{ payload_policy_id := some 1, score := 9/10 }]
        cappedWebClient 0 "2026-10-12" (some "지원") none none 5 0 3).1.length ≤ 5 ∧
    (service_web_search cappedWebClient 0 "2026-10-12" "지원"
      (fallback_max_results 5
        (local_responses [{ payload_policy_id := some 1, score := 9/10 }]
          [plainPolicy 1] 5 0).length)).length ≤ 4 := by
  have hapi : ∀ s k items, cappedWebClient.api s k = Except.ok items →
      items.length ≤ k := by
    intro s k items h
    have : items = List.take k
        [{ title := some "웹 문서", url := some "https://example.org",
           content := some "본문", score := some ((19:ℚ)/20),
           published_date := none }] := by
      simpa [cappedWebClient] using h.symm
    rw [this]
    simp [List.length_take]
  have h := hybrid_search_web_fallback [plainPolicy 1]
    [{ payload_policy_id := some 1, score := 9/10 }]
    cappedWebClient 0 "2026-10-12" "지원" none none 5 0 3 rfl hapi
  refine ⟨h.2.2.2.2.2.2.1, h.2.2.2.2.2.2.2 ?_ rfl⟩
  have hcollect1 : collect_scores [{ payload_policy_id := some 1, score := 9/10 }] =
      [(1, (9:ℚ)/10)] := by
    simp only [collect_scores, List.foldl_cons, List.foldl_nil]
    norm_num [truthy_pid, dict_upd]
  rw [local_responses, vector_search, hcollect1]
  norm_num [score_lookup, sortDesc, insertDesc, plainPolicy]

/-! ## Claim C7 -/

/-- The C7 failing scenario: API key configured, the Tavily API call
raises (quota error), DuckDuckGo importable and returning one result. -/
def c7_oracle : WebNodeOracle :=
  { tavily_api_key := true, client_init_exc := none,
    tavily_client :=
      { client_initialized := true,
        api := fun _ _ => Except.error "429 quota exceeded" },
    ddg_importable := true,
    ddg := Except.ok [{ href := "https://example.org", title := "대체 결과",
                        body := "본문" }],
    today := "2026-10-12" }

/-- C7: at the failing input (Tavily API raises, DuckDuckGo available),
`web_search_node` returns empty `web_sources` with no error - the Tavily
client swallows its own search exception and returns `[]`, so the
DuckDuckGo fallback block is never reached, although running it would
have produced a non-empty result list. -/
theorem web_search_node_no_ddg_fallback :
    (web_search_node c7_oracle
      { stateWithDocs [] with current_query := "최신 공고" }).web_sources = [] ∧
    (web_search_node c7_oracle
      { stateWithDocs [] with current_query := "최신 공고" }).error = none ∧
    (web_search_node_ddg c7_oracle
      { stateWithDocs [] with current_query := "최신 공고" }).web_sources ≠ [] := by
  refine ⟨rfl, rfl, ?_⟩
  intro h
  simpa [web_search_node_ddg, c7_oracle] using congrArg List.length h

/-! ## Claim C3 -/

theorem check_sufficiency_node_error (st : QAState) :
    (check_sufficiency_node st).error = st.error := by
  simp only [check_sufficiency_node]
  split
  next => rfl
  next =>
    split
    next => rfl
    next =>
      split
      next => rfl
      next => rfl

theorem classify_query_node_catch_query (exc : Option String) (st : QAState) :
    (classify_query_node_catch exc st).current_query = st.current_query := by
  cases exc <;> rfl

theorem web_search_node_ddg_error (o : WebNodeOracle) (st : QAState) :
    (web_search_node_ddg o st).error = st.error ∨
    ∃ e, (web_search_node_ddg o st).error = some e := by
  rw [web_search_node_ddg]
  by_cases hi : o.ddg_importable = true
  · rw [if_pos hi]
    cases o.ddg with
    | ok results => exact Or.inl rfl
    | error e => exact Or.inr ⟨e, rfl⟩
  · rw [if_neg hi]
    exact Or.inl rfl

theorem web_search_node_error (o : WebNodeOracle) (st : QAState) :
    (web_search_node o st).error = st.error ∨
    ∃ e, (web_search_node o st).error = some e := by
  rw [web_search_node]
  by_cases h1 : st.current_query = ""
  · rw [if_pos h1]
    exact Or.inl rfl
  · rw [if_neg h1]
    by_cases h2 : o.tavily_api_key = true
    · rw [if_pos h2]
      cases o.client_init_exc with
      | some e => exact web_search_node_ddg_error o st
      | none => exact Or.inl rfl
    · rw [if_neg h2]
      exact web_search_node_ddg_error o st

theorem append_ne_empty_left (a b : String) (ha : a.length ≠ 0) :
    a ++ b ≠ "" := by
  intro hc
  have h1 := congrArg String.length hc
  rw [String.length_append] at h1
  have h3 : "".length = 0 := rfl
  omega

/-- A benign environment: no API key, DuckDuckGo not importable, all node
bodies succeed, the LLM succeeds returning the empty string. -/
def c3_oracle : WorkflowOracle :=
  { classify_exc := none, retrieval := Except.ok [], check_exc := none,
    web :=
      { tavily_api_key := false, client_init_exc := none,
        tavily_client := { client_initialized := false,
                           api := fun _ _ => Except.ok [] },
        ddg_importable := false, ddg := Except.ok [], today := "2026-01-01" },
    llm := Except.ok "", top_exc := none }

/-- C3 counterexample: every stage completes without an exception and the
LLM successfully returns the empty string - `run_qa_workflow` then
returns an empty answer (with no error), contradicting the claim that the
caller always receives a non-empty answer. -/
theorem run_qa_workflow_empty_answer :
    (run_qa_workflow c3_oracle "s" 1 "q" []).answer = "" ∧
    (run_qa_workflow c3_oracle "s" 1 "q" []).error = none :=
  ⟨rfl, rfl⟩

/-- C3 as amended: `run_qa_workflow` is total (every oracle outcome maps
to a returned `RunResult`, no exception escapes); a top-level failure or a
synthesis failure yields the non-empty apologetic answer and a populated
error; when synthesis succeeds the answer is exactly the LLM output
(which is non-empty only when that output is); and a clean error field
implies no stage that ran failed (a retrieval failure can go unrecorded
only when the query is empty, in which case the retriever is never
consulted). -/
theorem run_qa_workflow_safe (o : WorkflowOracle) (sid : String) (pid : Int)
    (uq : String) (msgs : List (String × String)) :
    (∀ e, o.top_exc = some e →
      (run_qa_workflow o sid pid uq msgs).answer =
        "죄송합니다. 워크플로우 실행 중 오류가 발생했습니다: " ++ e ∧
      (run_qa_workflow o sid pid uq msgs).answer ≠ "" ∧
      (run_qa_workflow o sid pid uq msgs).error = some e) ∧
    (∀ e, o.top_exc = none → o.llm = Except.error e →
      (run_qa_workflow o sid pid uq msgs).answer =
        "죄송합니다. 답변 생성 중 오류가 발생했습니다: " ++ e ∧
      (run_qa_workflow o sid pid uq msgs).answer ≠ "" ∧
      (run_qa_workflow o sid pid uq msgs).error = some e) ∧
    (∀ a, o.top_exc = none → o.llm = Except.ok a →
      (run_qa_workflow o sid pid uq msgs).answer = a) ∧
    ((run_qa_workflow o sid pid uq msgs).error = none →
      o.top_exc = none ∧ o.classify_exc = none ∧ o.check_exc = none ∧
      (∀ e, uq ≠ "" → o.retrieval ≠ Except.error e) ∧
      (∀ e, o.llm ≠ Except.error e)) := by
  cases htop : o.top_exc with
  | some e0 =>
    refine ⟨?_, ?_, ?_, ?_⟩
    · intro e he
      obtain rfl := Option.some_injective _ he
      rw [run_qa_workflow, htop]
      exact ⟨rfl, append_ne_empty_left _ _ (by decide), rfl⟩
    · intro e hn
      exact absurd hn (by simp)
    · intro a hn
      exact absurd hn (by simp)
    · intro herr
      rw [run_qa_workflow, htop] at herr
      exact absurd herr (by simp)
  | none =>
    have hrun : run_qa_workflow o sid pid uq msgs =
        { session_id := (qa_invoke o (initial_state sid pid uq msgs)).1.session_id,
          policy_id := (qa_invoke o (initial_state sid pid uq msgs)).1.policy_id,
          answer := (qa_invoke o (initial_state sid pid uq msgs)).1.answer,
          evidence := (qa_invoke o (initial_state sid pid uq msgs)).1.evidence,
          error := (qa_invoke o (initial_state sid pid uq msgs)).1.error } := by
      rw [run_qa_workflow, htop]
    have hfinal : (qa_invoke o (initial_state sid pid uq msgs)).1 =
        generate_answer_node o.llm
          (web_search_node o.web
            (check_sufficiency_node_catch o.check_exc
              (retrieve_from_db_node o.retrieval
                (classify_query_node_catch o.classify_exc
                  (initial_state sid pid uq msgs))))) ∨
        (qa_invoke o (initial_state sid pid uq msgs)).1 =
        generate_answer_node o.llm
          (check_sufficiency_node_catch o.check_exc
            (retrieve_from_db_node o.retrieval
              (classify_query_node_catch o.classify_exc
                (initial_state sid pid uq msgs)))) := by
      simp only [qa_invoke]
      cases hr : should_web_search (check_sufficiency_node_catch o.check_exc
          (retrieve_from_db_node o.retrieval
            (classify_query_node_catch o.classify_exc
              (initial_state sid pid uq msgs)))) with
      | web_search => exact Or.inl rfl
      | generate_answer => exact Or.inr rfl
    refine ⟨?_, ?_, ?_, ?_⟩
    · intro e he
      exact absurd he (by simp)
    · intro e _ hllm
      rw [hrun]
      rcases hfinal with hf | hf <;>
        rw [hf, hllm] <;>
        exact ⟨rfl, append_ne_empty_left _ _ (by decide), rfl⟩
    · intro a _ hllm
      rw [hrun]
      rcases hfinal with hf | hf <;> rw [hf, hllm] <;> rfl
    · intro herr
      rw [hrun] at herr
      simp only at herr
      have hs'err : ∀ st : QAState,
          (qa_invoke o (initial_state sid pid uq msgs)).1 =
            generate_answer_node o.llm st →
          st.error = none ∧ (∀ e, o.llm ≠ Except.error e) := by
        intro st hf
        rw [hf] at herr
        cases hllm : o.llm with
        | ok a =>
          rw [hllm] at herr
          exact ⟨herr, fun e hc => by simp at hc⟩
        | error e =>
          rw [hllm] at herr
          exact absurd herr (by simp [generate_answer_node])
      have hs3 : (check_sufficiency_node_catch o.check_exc
          (retrieve_from_db_node o.retrieval
            (classify_query_node_catch o.classify_exc
              (initial_state sid pid uq msgs)))).error = none ∧
          (∀ e, o.llm ≠ Except.error e) := by
        rcases hfinal with hf | hf
        · obtain ⟨hwerr, hllm⟩ := hs'err _ hf
          rcases web_search_node_error o.web _ with hcase | ⟨e, hcase⟩
          · rw [hcase] at hwerr
            exact ⟨hwerr, hllm⟩
          · rw [hcase] at hwerr
            exact absurd hwerr (by simp)
        · obtain ⟨herr3, hllm⟩ := hs'err _ hf
          exact ⟨herr3, hllm⟩
      obtain ⟨hs3err, hllm⟩ := hs3
      have hcheck : o.check_exc = none ∧
          (retrieve_from_db_node o.retrieval
            (classify_query_node_catch o.classify_exc
              (initial_state sid pid uq msgs))).error = none := by
        cases hce : o.check_exc with
        | some m =>
          rw [hce] at hs3err
          exact absurd hs3err (by simp [check_sufficiency_node_catch])
        | none =>
          rw [hce] at hs3err
          simp only [check_sufficiency_node_catch] at hs3err
          rw [check_sufficiency_node_error] at hs3err
          exact ⟨rfl, hs3err⟩
      obtain ⟨hce, hs2err⟩ := hcheck
      have hquery : (classify_query_node_catch o.classify_exc
          (initial_state sid pid uq msgs)).current_query = uq := by
        rw [classify_query_node_catch_query]
        rfl
      have hretr : (∀ e, uq ≠ "" → o.retrieval ≠ Except.error e) ∧
          (classify_query_node_catch o.classify_exc
            (initial_state sid pid uq msgs)).error = none := by
        rw [retrieve_from_db_node.eq_def] at hs2err
        by_cases hq0 : (classify_query_node_catch o.classify_exc
            (initial_state sid pid uq msgs)).current_query = ""
        · rw [if_pos hq0] at hs2err
          refine ⟨?_, hs2err⟩
          intro e hne
          rw [hquery] at hq0
          exact absurd hq0 hne
        · rw [if_neg hq0] at hs2err
          cases hr : o.retrieval with
          | ok results =>
            rw [hr] at hs2err
            exact ⟨fun e _ hc => by simp at hc, hs2err⟩
          | error e =>
            rw [hr] at hs2err
            exact Option.noConfusion hs2err
      obtain ⟨hretrieval, hs1err⟩ := hretr
      have hclassify : o.classify_exc = none := by
        cases hcl : o.classify_exc with
        | some m =>
          rw [hcl] at hs1err
          exact absurd hs1err (by simp [classify_query_node_catch])
        | none => rfl
      exact ⟨rfl, hclassify, hce, hretrieval, hllm⟩

/-- Witness for C3: with a successful LLM returning a non-empty string,
the workflow returns exactly that answer. -/
theorem run_qa_workflow_safe_witness :
    (run_qa_workflow
      { c3_oracle with llm := Except.ok "안내드립니다." } "s" 1 "q" []).answer =
      "안내드립니다." := by
  exact (run_qa_workflow_safe
    { c3_oracle with llm := Except.ok "안내드립니다." } "s" 1 "q" []).2.2.1
    "안내드립니다." rfl rfl

/-! ## Text chunker (`vector_store/chunker.py`) -/

/-- The whitespace class of the cleaning regex and of `str.strip`
(space, tab, newline, carriage return, vertical tab, form feed). -/
def isSpaceChar (c : Char) : Bool :=
  c == ' ' || c == '\t' || c == '\n' || c == '\r' ||
  c == Char.ofNat 11 || c == Char.ofNat 12

/-- `re.sub(r'\s+', ' ', text)`: collapse every whitespace run into one
space; the second substitution of `_clean_text` (collapsing newline runs)
is the identity afterwards, since no newline survives this pass. -/
def collapse_ws_go : List Char → Bool → List Char
  | [], _ => []
  | c :: rest, prevSpace =>
      if isSpaceChar c then
        (if prevSpace then collapse_ws_go rest true
         else ' ' :: collapse_ws_go rest true)
      else c :: collapse_ws_go rest false

/-- Python `str.strip()`. -/
def strip_chars (l : List Char) : List Char :=
  ((l.dropWhile isSpaceChar).reverse.dropWhile isSpaceChar).reverse

/-- `TextChunker._clean_text`. -/
def clean_text (l : List Char) : List Char :=
  strip_chars (collapse_ws_go l false)

/-- The sentence-terminator class `[.!?。]`. -/
def is_sentence_terminator (c : Char) : Bool :=
  c == '.' || c == '!' || c == '?' || c == '。'

/-- `re.split` on the terminator class: the raw pieces between
terminators (empty pieces included). -/
def split_raw : List Char → List (List Char)
  | [] => [[]]
  | c :: rest =>
      if is_sentence_terminator c then [] :: split_raw rest
      else
        match split_raw rest with
        | [] => [[c]]
        | s :: ss => (c :: s) :: ss

/-- `TextChunker._split_into_sentences`: split, strip each piece, drop
empties. -/
def split_into_sentences (l : List Char) : List (List Char) :=
  ((split_raw l).map strip_chars).filter fun s => !s.isEmpty

/-- `TextChunker._get_overlap_text`: the trailing `chunk_overlap`
characters. -/
def get_overlap_text (chunk_overlap : Nat) (t : List Char) : List Char :=
  if t.length ≤ chunk_overlap then t else t.drop (t.length - chunk_overlap)

/-- The sentence-packing loop of `TextChunker.split_text` (lines 74–108):
state is (remaining sentences, `current_chunk`, `current_length`,
accumulated chunk contents).  `current_length` is the code's own
bookkeeping, which counts sentence lengths but neither the joining
spaces nor the seeded overlap text. -/
def split_loop (chunk_size chunk_overlap : Nat) :
    List (List Char) → List Char → Nat → List (List Char) → List (List Char)
  | [], current_chunk, _, chunks =>
      if (strip_chars current_chunk).isEmpty then chunks
      else chunks ++ [strip_chars current_chunk]
  | sentence :: rest, current_chunk, current_length, chunks =>
      if current_length + sentence.length > chunk_size ∧ current_chunk ≠ [] then
        let closed := chunks ++ [strip_chars current_chunk]
        let overlap_text := get_overlap_text chunk_overlap current_chunk
        let new_chunk := overlap_text ++ [' '] ++ sentence
        split_loop chunk_size chunk_overlap rest new_chunk new_chunk.length closed
      else
        let new_chunk :=
          if current_chunk.isEmpty then sentence
          else current_chunk ++ [' '] ++ sentence
        split_loop chunk_size chunk_overlap rest new_chunk
          (current_length + sentence.length) chunks

/-- `TextChunker.split_text` (chunk contents only; each chunk also
carries the caller metadata and its ordinal index). -/
def split_text (chunk_size chunk_overlap : Nat) (text : List Char) :
    List (List Char) :=
  if (strip_chars text).isEmpty then []
  else
    split_loop chunk_size chunk_overlap
      (split_into_sentences (clean_text text)) [] 0 []

theorem strip_chars_length_le (l : List Char) :
    (strip_chars l).length ≤ l.length := by
  rw [strip_chars, List.length_reverse]
  calc ((l.dropWhile isSpaceChar).reverse.dropWhile isSpaceChar).length
      ≤ (l.dropWhile isSpaceChar).reverse.length :=
        (List.dropWhile_sublist _).length_le
    _ = (l.dropWhile isSpaceChar).length := List.length_reverse _
    _ ≤ l.length := (List.dropWhile_sublist _).length_le

theorem get_overlap_text_length_le (co : Nat) (t : List Char) :
    (get_overlap_text co t).length ≤ co := by
  rw [get_overlap_text]
  by_cases h : t.length ≤ co
  · rw [if_pos h]
    exact h
  · rw [if_neg h]
    rw [List.length_drop]
    omega

theorem split_into_sentences_ne_nil (l : List Char) :
    ∀ s ∈ split_into_sentences l, s ≠ [] := by
  intro s hs
  obtain ⟨-, hpred⟩ := List.mem_filter.mp hs
  intro hnil
  rw [hnil] at hpred
  simp at hpred

theorem split_loop_bound (cs co : Nat) (sents : List (List Char)) :
    ∀ (cur : List Char) (cl : Nat) (chunks : List (List Char)),
      (∀ s ∈ sents, s.length ≤ cs ∧ s ≠ []) →
      cur.length ≤ 2 * cl →
      cl ≤ cs + co + 1 →
      (cur = [] → cl = 0) →
      (∀ c ∈ chunks, c.length ≤ 2 * (cs + co + 1)) →
      ∀ c ∈ split_loop cs co sents cur cl chunks,
        c.length ≤ 2 * (cs + co + 1) := by
  induction sents with
  | nil =>
    intro cur cl chunks _ hcur hcl _ hchunks c hc
    simp only [split_loop] at hc
    by_cases he : (strip_chars cur).isEmpty = true
    · rw [if_pos he] at hc
      exact hchunks c hc
    · rw [if_neg he] at hc
      rcases List.mem_append.mp hc with h2 | h2
      · exact hchunks c h2
      · rw [List.mem_singleton] at h2
        subst h2
        have h3 := strip_chars_length_le cur
        omega
  | cons s rest ih =>
    intro cur cl chunks hs hcur hcl hemp hchunks c hc
    have hslen : s.length ≤ cs := (hs s (List.mem_cons_self s rest)).1
    have hsne : s ≠ [] := (hs s (List.mem_cons_self s rest)).2
    have hspos : 0 < s.length := List.length_pos.mpr hsne
    have hsrest : ∀ t ∈ rest, t.length ≤ cs ∧ t ≠ [] :=
      fun t ht => hs t (List.mem_cons_of_mem s ht)
    simp only [split_loop] at hc
    by_cases hcond : cl + s.length > cs ∧ cur ≠ []
    · rw [if_pos hcond] at hc
      have hov := get_overlap_text_length_le co cur
      refine ih _ _ _ hsrest (by omega) ?_ ?_ ?_ c hc
      · rw [List.length_append, List.length_append]
        simp only [List.length_cons, List.length_nil]
        omega
      · intro h
        simp at h
      · intro c2 hc2
        rcases List.mem_append.mp hc2 with h2 | h2
        · exact hchunks c2 h2
        · rw [List.mem_singleton] at h2
          subst h2
          have h3 := strip_chars_length_le cur
          omega
    · rw [if_neg hcond] at hc
      by_cases hce : cur.isEmpty = true
      · rw [if_pos hce] at hc
        have hcl0 : cl = 0 := hemp (List.isEmpty_iff.mp hce)
        refine ih _ _ _ hsrest (by omega) (by omega) ?_ hchunks c hc
        intro h
        exact absurd h hsne
      · rw [if_neg hce] at hc
        have hcurne : cur ≠ [] := by
          intro h
          rw [h] at hce
          simp at hce
        have hle : cl + s.length ≤ cs := by
          by_contra hgt
          exact hcond ⟨by omega, hcurne⟩
        refine ih _ _ _ hsrest ?_ (by omega) ?_ hchunks c hc
        · rw [List.length_append, List.length_append]
          simp only [List.length_cons, List.length_nil]
          omega
        · intro h
          simp at h

/-! ## Claim C8 -/

/-- C8 counterexample: with `targetSize = 10` and `overlapSize = 5`, the
text "aaa. bbb. ccc." is split into the single chunk "aaa bbb ccc" of
length 11 > 10, although every sentence has length 3 ≤ 10 - the joining
spaces are not counted by the code's length bookkeeping, so the chunk is
not a single oversized sentence and still exceeds `targetSize`. -/
theorem split_text_exceeds_target :
    split_text 10 5 "aaa. bbb. ccc.".data = ["aaa bbb ccc".data] ∧
    10 < ("aaa bbb ccc".data).length ∧
    (∀ s ∈ split_into_sentences (clean_text "aaa. bbb. ccc.".data),
      s.length ≤ 10) := by
  decide

/-- C8 as amended: the `targetSize` bound holds only up to the joining
spaces and the seeded overlap text, which the code's length bookkeeping
does not count: when every sentence of the cleaned text is at most
`targetSize` long, every produced chunk has length at most
`2 * (targetSize + overlapSize + 1)`; empty or whitespace-only input
yields an empty chunk sequence. -/
theorem split_text_bound (cs co : Nat) (text : List Char)
    (h : ∀ s ∈ split_into_sentences (clean_text text), s.length ≤ cs) :
    (∀ c ∈ split_text cs co text, c.length ≤ 2 * (cs + co + 1)) ∧
    ((strip_chars text).isEmpty = true → split_text cs co text = []) := by
  constructor
  · intro c hc
    rw [split_text] at hc
    by_cases he : (strip_chars text).isEmpty = true
    · rw [if_pos he] at hc
      cases hc
    · rw [if_neg he] at hc
      refine split_loop_bound cs co _ [] 0 [] ?_ (by simp) (by omega)
        (fun _ => rfl) (by simp) c hc
      intro s hs
      exact ⟨h s hs, split_into_sentences_ne_nil _ s hs⟩
  · intro he
    rw [split_text, if_pos he]

/-- Witness for C8 at concrete inputs: the produced chunk of the
counterexample text is within the amended bound 2 * (10 + 5 + 1) = 32,
and whitespace-only input yields no chunks. -/
theorem split_text_bound_witness :
    ("aaa bbb ccc".data).length ≤ 2 * (10 + 5 + 1) ∧
    split_text 10 5 "  ".data = [] :=
  ⟨(split_text_bound 10 5 "aaa. bbb. ccc.".data (by decide)).1
      "aaa bbb ccc".data (by decide),
   (split_text_bound 10 5 "  ".data (by decide)).2 (by decide)⟩

end PolicyQA
